import Mathlib

/-!
Shallow embedding of `pkg/cmd/secret/list/list.go` (the `secret list`
command core): scope resolution, the single REST fetch, and the table
presenter.  External collaborators (HTTP client factory, repository
context accessor, REST helper, table renderer) are passed in explicitly;
the outcome records the trace of REST requests issued and whether the
repository-context accessor was consulted, so that claims about which
call is made can be stated directly.
-/

namespace SecretList

/-- The `ghrepo.Interface` value: the ambient repository context, exposing
`RepoOwner()`, `RepoName()` and `RepoHost()`. -/
structure Repo where
  RepoOwner : String
  RepoName  : String
  RepoHost  : String
deriving DecidableEq, Repr

/-- Modelled from the spec: `ghrepo.FullName` (not under `src/`) addresses a
repository "by full owner/name", i.e. `owner/name`. -/
def FullName (r : Repo) : String :=
  r.RepoOwner ++ "/" ++ r.RepoName

/-- A calendar date, standing in for the date part of `time.Time`
(`updated_at`); only the date is ever formatted by this command. -/
structure Date where
  year  : Nat
  month : Nat
  day   : Nat
deriving DecidableEq, Repr

/-- Zero-pad a numeral to two digits, as Go layout `01`/`02` does. -/
def pad2 (n : Nat) : String :=
  if n < 10 then "0" ++ toString n else toString n

/-- Zero-pad a year to four digits, as Go layout `2006` does. -/
def pad4 (n : Nat) : String :=
  if n < 10 then "000" ++ toString n
  else if n < 100 then "00" ++ toString n
  else if n < 1000 then "0" ++ toString n
  else toString n

/-- Render a date as `YYYY-MM-DD`, i.e. Go's `t.Format("2006-01-02")`. -/
def formatDate (d : Date) : String :=
  pad4 d.year ++ "-" ++ pad2 d.month ++ "-" ++ pad2 d.day

/-- The `Secret` record decoded from the wire payload. -/
structure Secret where
  Name       : String
  UpdatedAt  : Date
  Visibility : String
deriving DecidableEq, Repr

/-- Modelled from the spec: `shared.VisAll` (package
`pkg/cmd/secret/shared`, not under `src/`); the `all` visibility tag. -/
def VisAll : String := "all"

/-- Modelled from the spec: `shared.VisPrivate`; the `private` tag. -/
def VisPrivate : String := "private"

/-- Modelled from the spec: `shared.VisSelected`; the `selected` tag. -/
def VisSelected : String := "selected"

/-- Map an organization secret's visibility tag to the interactive
descriptive phrase (`fmtVisibility`); unrecognized tags map to `""`. -/
def fmtVisibility (s : Secret) : String :=
  if s.Visibility = VisAll then "Visible to all repositories"
  else if s.Visibility = VisPrivate then "Visible to private repositories"
  else if s.Visibility = VisSelected then "Visible to selected repositories"
  else ""

/-- One REST call as issued through `client.REST(host, method, path, ...)`. -/
structure Request where
  host   : String
  method : String
  path   : String
deriving DecidableEq, Repr

/-- The decoded JSON wrapper `{ "secrets": [...] }` (`secretsPayload`). -/
structure secretsPayload where
  Secrets : List Secret
deriving DecidableEq, Repr

/-- The REST helper collaborator: performs the call and either decodes a
payload or fails with a transport/decoding error. -/
def RestHelper : Type := Request → Except String secretsPayload

/-- Build the request, issue the single `GET` through the REST helper,
and return the inner sequence (or the error); this is `getSecrets`.  The
request itself is returned alongside so the issued call is observable. -/
def getSecrets (rest : RestHelper) (host path : String) :
    Request × Except String (List Secret) :=
  let req : Request := ⟨host, "GET", path⟩
  match rest req with
  | .error err => (req, .error err)
  | .ok result => (req, .ok result.Secrets)

/-- Fetch from `orgs/{orgName}/actions/secrets` (`getOrgSecrets`). -/
def getOrgSecrets (rest : RestHelper) (host orgName : String) :
    Request × Except String (List Secret) :=
  getSecrets rest host ("orgs/" ++ orgName ++ "/actions/secrets")

/-- Fetch from `repos/{owner}/{name}/actions/secrets` at the
repository's own host (`getRepoSecrets`). -/
def getRepoSecrets (rest : RestHelper) (repo : Repo) :
    Request × Except String (List Secret) :=
  getSecrets rest repo.RepoHost ("repos/" ++ FullName repo ++ "/actions/secrets")

/-- Uppercase a string character by character, as `strings.ToUpper` does
over the closed set of visibility tags. -/
def strToUpper (s : String) : String :=
  String.mk (s.data.map Char.toUpper)

/-- The table-render collaborator's builder state: completed rows plus
the fields of the row under construction. -/
structure TablePrinter where
  rows    : List (List String)
  current : List String
deriving DecidableEq, Repr

/-- Append one field to the current row, i.e. `tp.AddField(value, nil,
nil)` (the color and width callbacks are always `nil` here, so omitted). -/
def TablePrinter.AddField (tp : TablePrinter) (value : String) : TablePrinter :=
  { tp with current := tp.current ++ [value] }

/-- Close the current row (`tp.EndRow()`). -/
def TablePrinter.EndRow (tp : TablePrinter) : TablePrinter :=
  { rows := tp.rows ++ [tp.current], current := [] }

/-- The body of the render loop for one secret: name, formatted
update date (with `Updated ` prefix on a TTY), and - only when the
visibility tag is non-empty - the visibility column (phrase on a TTY,
uppercased tag otherwise), then the row terminator. -/
def addSecretRow (isTTY : Bool) (tp : TablePrinter) (secret : Secret) : TablePrinter :=
  let tp := tp.AddField secret.Name
  let updatedAt := formatDate secret.UpdatedAt
  let updatedAt := if isTTY then "Updated " ++ updatedAt else updatedAt
  let tp := tp.AddField updatedAt
  let tp :=
    if secret.Visibility ≠ "" then
      if isTTY then tp.AddField (fmtVisibility secret)
      else tp.AddField (strToUpper secret.Visibility)
    else tp
  tp.EndRow

/-- The whole render loop of `listRun` over the fetched secrets. -/
def buildTable (isTTY : Bool) (secrets : List Secret) : TablePrinter :=
  secrets.foldl (addSecretRow isTTY) ⟨[], []⟩

/-- The fields of the single row rendered for one secret. -/
def secretRow (isTTY : Bool) (secret : Secret) : List String :=
  let updatedAt := formatDate secret.UpdatedAt
  let updatedAt := if isTTY then "Updated " ++ updatedAt else updatedAt
  [secret.Name, updatedAt] ++
    (if secret.Visibility ≠ "" then
      [if isTTY then fmtVisibility secret else strToUpper secret.Visibility]
     else [])

/-- The command options (`ListOptions`).  The collaborators
`HttpClient()` and `BaseRepo()` are modelled by their outcome; the
stream descriptor's terminal test by a boolean. -/
structure ListOptions where
  HttpClient  : Except String Unit
  BaseRepo    : Except String Repo
  OrgName     : String
  IsStdoutTTY : Bool

/-- The observable outcome of one `listRun` invocation: the REST
requests issued (in order), whether the repository-context accessor was
invoked, the rows handed to the table renderer, and the final result. -/
structure RunOutcome where
  requests       : List Request
  baseRepoCalled : Bool
  rows           : List (List String)
  result         : Except String Unit
deriving Repr

/-- Dereference the possibly-nil `baseRepo` interface value; `none`
corresponds to the nil interface, which `listRun` never dereferences. -/
def derefRepo : Option Repo → Repo
  | some r => r
  | none   => ⟨"", "", ""⟩

/-- The tail of `listRun` after the fetch was issued: wrap a fetch
failure as `failed to get secrets`, otherwise build the table and hand
it to the renderer, returning the renderer's error verbatim. -/
def finishRun (isTTY : Bool) (render : List (List String) → Except String Unit)
    (called : Bool) (fetched : Request × Except String (List Secret)) : RunOutcome :=
  match fetched.2 with
  | .error err =>
      ⟨[fetched.1], called, [], .error ("failed to get secrets: " ++ err)⟩
  | .ok secrets =>
    let tableRows := (buildTable isTTY secrets).rows
    match render tableRows with
    | .error err => ⟨[fetched.1], called, tableRows, .error err⟩
    | .ok _ => ⟨[fetched.1], called, tableRows, .ok ()⟩

/-- The command core `listRun`: create the client, resolve the base
repository when the scope may need it, resolve the effective
organization name and host, fetch, and render.  `defaultHost` stands for
`ghinstance.OverridableDefault()` (modelled from the spec as explicit
configuration: the default, configuration-overridable service host);
`render` is the table-render collaborator's `Render()`. -/
def listRun (defaultHost : String) (opts : ListOptions) (rest : RestHelper)
    (render : List (List String) → Except String Unit) : RunOutcome :=
  match opts.HttpClient with
  | .error err => ⟨[], false, [], .error ("could not create http client: " ++ err)⟩
  | .ok _ =>
    let needRepo := opts.OrgName = "" ∨ opts.OrgName = "@owner"
    let repoStep : Except String (Option Repo) :=
      if needRepo then
        match opts.BaseRepo with
        | .error err => .error err
        | .ok r => .ok (some r)
      else .ok none
    match repoStep with
    | .error err =>
        ⟨[], true, [], .error ("could not determine base repo: " ++ err)⟩
    | .ok baseRepo =>
      let orgName := opts.OrgName
      let host := defaultHost
      let orgName' := if orgName = "@owner" then (derefRepo baseRepo).RepoOwner else orgName
      let host' := if orgName = "@owner" then (derefRepo baseRepo).RepoHost else host
      let fetched : Request × Except String (List Secret) :=
        if orgName' ≠ "" then getOrgSecrets rest host' orgName'
        else getRepoSecrets rest (derefRepo baseRepo)
      finishRun opts.IsStdoutTTY render (decide needRepo) fetched

/-! ### Helper lemmas shared by the claim theorems -/

theorem addSecretRow_eq (isTTY : Bool) (rows : List (List String)) (s : Secret) :
    addSecretRow isTTY ⟨rows, []⟩ s = ⟨rows ++ [secretRow isTTY s], []⟩ := by
  unfold addSecretRow secretRow TablePrinter.AddField TablePrinter.EndRow
  by_cases h : s.Visibility = "" <;> cases isTTY <;> simp [h]

theorem foldl_addSecretRow_rows (isTTY : Bool) (secrets : List Secret)
    (rows : List (List String)) :
    (secrets.foldl (addSecretRow isTTY) ⟨rows, []⟩).rows =
      rows ++ secrets.map (secretRow isTTY) := by
  induction secrets generalizing rows with
  | nil => simp
  | cons s rest ih => simp [addSecretRow_eq, ih]

theorem buildTable_rows (isTTY : Bool) (secrets : List Secret) :
    (buildTable isTTY secrets).rows = secrets.map (secretRow isTTY) := by
  simpa using foldl_addSecretRow_rows isTTY secrets []

theorem listRun_client_error (defaultHost : String) (opts : ListOptions)
    (rest : RestHelper) (render : List (List String) → Except String Unit)
    (e : String) (hc : opts.HttpClient = .error e) :
    listRun defaultHost opts rest render =
      ⟨[], false, [], .error ("could not create http client: " ++ e)⟩ := by
  simp [listRun, hc]

theorem listRun_repo_error (defaultHost : String) (opts : ListOptions)
    (rest : RestHelper) (render : List (List String) → Except String Unit)
    (e : String) (hc : opts.HttpClient = .ok ())
    (hneed : opts.OrgName = "" ∨ opts.OrgName = "@owner")
    (hb : opts.BaseRepo = .error e) :
    listRun defaultHost opts rest render =
      ⟨[], true, [], .error ("could not determine base repo: " ++ e)⟩ := by
  simp [listRun, hc, hneed, hb]

theorem listRun_org_literal (defaultHost : String) (opts : ListOptions)
    (rest : RestHelper) (render : List (List String) → Except String Unit)
    (hc : opts.HttpClient = .ok ())
    (h1 : opts.OrgName ≠ "") (h2 : opts.OrgName ≠ "@owner") :
    listRun defaultHost opts rest render =
      finishRun opts.IsStdoutTTY render false
        (getOrgSecrets rest defaultHost opts.OrgName) := by
  simp [listRun, hc, h1, h2]

theorem listRun_org_owner (defaultHost : String) (opts : ListOptions)
    (rest : RestHelper) (render : List (List String) → Except String Unit)
    (repo : Repo) (hc : opts.HttpClient = .ok ())
    (ho : opts.OrgName = "@owner") (hb : opts.BaseRepo = .ok repo)
    (hw : repo.RepoOwner ≠ "") :
    listRun defaultHost opts rest render =
      finishRun opts.IsStdoutTTY render true
        (getOrgSecrets rest repo.RepoHost repo.RepoOwner) := by
  simp [listRun, hc, ho, hb, derefRepo, hw]

theorem listRun_repo_scope (defaultHost : String) (opts : ListOptions)
    (rest : RestHelper) (render : List (List String) → Except String Unit)
    (repo : Repo) (hc : opts.HttpClient = .ok ())
    (ho : opts.OrgName = "") (hb : opts.BaseRepo = .ok repo) :
    listRun defaultHost opts rest render =
      finishRun opts.IsStdoutTTY render true (getRepoSecrets rest repo) := by
  simp [listRun, hc, ho, hb, derefRepo]

theorem finishRun_requests (isTTY : Bool)
    (render : List (List String) → Except String Unit) (called : Bool)
    (fetched : Request × Except String (List Secret)) :
    (finishRun isTTY render called fetched).requests = [fetched.1] := by
  rcases fetched with ⟨req, res⟩
  cases res with
  | error e => rfl
  | ok secrets =>
      cases h : render (buildTable isTTY secrets).rows <;> simp [finishRun, h]

theorem getOrgSecrets_fst (rest : RestHelper) (host orgName : String) :
    (getOrgSecrets rest host orgName).1 =
      ⟨host, "GET", "orgs/" ++ orgName ++ "/actions/secrets"⟩ := by
  cases h : rest ⟨host, "GET", "orgs/" ++ orgName ++ "/actions/secrets"⟩ <;>
    simp [getOrgSecrets, getSecrets, h]

theorem listRun_owner_empty (defaultHost : String) (opts : ListOptions)
    (rest : RestHelper) (render : List (List String) → Except String Unit)
    (repo : Repo) (hc : opts.HttpClient = .ok ())
    (ho : opts.OrgName = "@owner") (hb : opts.BaseRepo = .ok repo)
    (hw : repo.RepoOwner = "") :
    listRun defaultHost opts rest render =
      finishRun opts.IsStdoutTTY render true (getRepoSecrets rest repo) := by
  simp [listRun, hc, ho, hb, derefRepo, hw]

theorem finishRun_called (isTTY : Bool)
    (render : List (List String) → Except String Unit) (called : Bool)
    (fetched : Request × Except String (List Secret)) :
    (finishRun isTTY render called fetched).baseRepoCalled = called := by
  rcases fetched with ⟨req, res⟩
  cases res with
  | error e => rfl
  | ok secrets =>
      cases h : render (buildTable isTTY secrets).rows <;> simp [finishRun, h]

theorem finishRun_fetch_error (isTTY : Bool)
    (render : List (List String) → Except String Unit) (called : Bool)
    (req : Request) (e : String) :
    finishRun isTTY render called (req, .error e) =
      ⟨[req], called, [], .error ("failed to get secrets: " ++ e)⟩ := rfl

theorem finishRun_render_error (isTTY : Bool)
    (render : List (List String) → Except String Unit) (called : Bool)
    (req : Request) (secrets : List Secret) (e : String)
    (h : render (buildTable isTTY secrets).rows = .error e) :
    finishRun isTTY render called (req, .ok secrets) =
      ⟨[req], called, (buildTable isTTY secrets).rows, .error e⟩ := by
  simp [finishRun, h]

theorem finishRun_render_ok (isTTY : Bool)
    (render : List (List String) → Except String Unit) (called : Bool)
    (req : Request) (secrets : List Secret)
    (h : render (buildTable isTTY secrets).rows = .ok ()) :
    finishRun isTTY render called (req, .ok secrets) =
      ⟨[req], called, (buildTable isTTY secrets).rows, .ok ()⟩ := by
  simp [finishRun, h]

theorem listRun_cases (defaultHost : String) (opts : ListOptions)
    (rest : RestHelper) (render : List (List String) → Except String Unit) :
    (∃ e, opts.HttpClient = .error e ∧
      listRun defaultHost opts rest render =
        ⟨[], false, [], .error ("could not create http client: " ++ e)⟩) ∨
    (∃ e, opts.BaseRepo = .error e ∧
      (opts.OrgName = "" ∨ opts.OrgName = "@owner") ∧
      listRun defaultHost opts rest render =
        ⟨[], true, [], .error ("could not determine base repo: " ++ e)⟩) ∨
    (∃ host path called,
      listRun defaultHost opts rest render =
        finishRun opts.IsStdoutTTY render called (getSecrets rest host path)) := by
  cases hc : opts.HttpClient with
  | error e =>
      exact .inl ⟨e, rfl, listRun_client_error defaultHost opts rest render e hc⟩
  | ok u =>
    cases u
    by_cases hneed : opts.OrgName = "" ∨ opts.OrgName = "@owner"
    · cases hb : opts.BaseRepo with
      | error e =>
          exact .inr (.inl ⟨e, rfl, hneed,
            listRun_repo_error defaultHost opts rest render e hc hneed hb⟩)
      | ok repo =>
        refine .inr (.inr ?_)
        rcases hneed with ho | ho
        · exact ⟨repo.RepoHost, "repos/" ++ FullName repo ++ "/actions/secrets", true,
            listRun_repo_scope defaultHost opts rest render repo hc ho hb⟩
        · by_cases hw : repo.RepoOwner = ""
          · exact ⟨repo.RepoHost, "repos/" ++ FullName repo ++ "/actions/secrets", true,
              listRun_owner_empty defaultHost opts rest render repo hc ho hb hw⟩
          · exact ⟨repo.RepoHost, "orgs/" ++ repo.RepoOwner ++ "/actions/secrets", true,
              listRun_org_owner defaultHost opts rest render repo hc ho hb hw⟩
    · push_neg at hneed
      exact .inr (.inr ⟨defaultHost, "orgs/" ++ opts.OrgName ++ "/actions/secrets", false,
        listRun_org_literal defaultHost opts rest render hc hneed.1 hneed.2⟩)

theorem getRepoSecrets_fst (rest : RestHelper) (repo : Repo) :
    (getRepoSecrets rest repo).1 =
      ⟨repo.RepoHost, "GET", "repos/" ++ FullName repo ++ "/actions/secrets"⟩ := by
  cases h : rest ⟨repo.RepoHost, "GET", "repos/" ++ FullName repo ++ "/actions/secrets"⟩ <;>
    simp [getRepoSecrets, getSecrets, h]

/-! ### Claim theorems -/

/-- C1 counterexample: with `--org=@owner` and an ambient repository whose
owner is the empty string, the effective organization name resolves to
`""`, so the code takes the repository branch and issues the `GET`
against `repos//r/actions/secrets`, not an `orgs/...` path as the claim
requires for every `@owner` invocation. -/
theorem c1_counterexample :
    (listRun "default.host"
        ⟨.ok (), .ok ⟨"", "r", "h"⟩, "@owner", false⟩
        (fun _ => .ok ⟨[]⟩) (fun _ => .ok ())).requests =
      [⟨"h", "GET", "repos//r/actions/secrets"⟩] ∧
    ("repos//r/actions/secrets" : String) ≠ "orgs//actions/secrets" :=
  ⟨rfl, by decide⟩

/-- C1 amended: when `--org` carries the `@owner` sentinel, the client was
created, the repository accessor succeeded, and the ambient owner is
non-empty, the single `GET` targets `orgs/{ambient-owner}/actions/secrets`
at the ambient repository's host. -/
theorem c1_org_shorthand_request (defaultHost : String) (opts : ListOptions)
    (rest : RestHelper) (render : List (List String) → Except String Unit)
    (repo : Repo) (hc : opts.HttpClient = .ok ())
    (ho : opts.OrgName = "@owner") (hb : opts.BaseRepo = .ok repo)
    (hw : repo.RepoOwner ≠ "") :
    (listRun defaultHost opts rest render).requests =
      [⟨repo.RepoHost, "GET", "orgs/" ++ repo.RepoOwner ++ "/actions/secrets"⟩] := by
  rw [listRun_org_owner defaultHost opts rest render repo hc ho hb hw,
    finishRun_requests, getOrgSecrets_fst]

/-- C1 witness: a concrete `@owner` invocation with ambient repository
`octo/repo1` at `example.com` issues the `GET` against
`orgs/octo/actions/secrets` at `example.com`. -/
theorem c1_org_shorthand_witness :
    (listRun "default.host"
        ⟨.ok (), .ok ⟨"octo", "repo1", "example.com"⟩, "@owner", true⟩
        (fun _ => .ok ⟨[]⟩) (fun _ => .ok ())).requests =
      [⟨"example.com", "GET", "orgs/octo/actions/secrets"⟩] := by
  have h := c1_org_shorthand_request "default.host"
      ⟨.ok (), .ok ⟨"octo", "repo1", "example.com"⟩, "@owner", true⟩
      (fun _ => .ok ⟨[]⟩) (fun _ => .ok ())
      ⟨"octo", "repo1", "example.com"⟩ rfl rfl rfl (by decide)
  simpa using h

/-- C2: when `--org` carries a literal organization name (non-empty and
not the sentinel) and the client was created, the single `GET` targets
`orgs/{name}/actions/secrets` at the default (configuration-overridable)
host, whatever the ambient repository context is. -/
theorem c2_org_literal_request (defaultHost : String) (opts : ListOptions)
    (rest : RestHelper) (render : List (List String) → Except String Unit)
    (hc : opts.HttpClient = .ok ())
    (h1 : opts.OrgName ≠ "") (h2 : opts.OrgName ≠ "@owner") :
    (listRun defaultHost opts rest render).requests =
      [⟨defaultHost, "GET", "orgs/" ++ opts.OrgName ++ "/actions/secrets"⟩] := by
  rw [listRun_org_literal defaultHost opts rest render hc h1 h2,
    finishRun_requests, getOrgSecrets_fst]

/-- C2 witness: `--org=acme` with an ambient repository living at
`ghe.corp.example` still issues the `GET` against
`orgs/acme/actions/secrets` at the default host `api.example.com`. -/
theorem c2_org_literal_witness :
    (listRun "api.example.com"
        ⟨.ok (), .ok ⟨"octo", "repo1", "ghe.corp.example"⟩, "acme", false⟩
        (fun _ => .ok ⟨[]⟩) (fun _ => .ok ())).requests =
      [⟨"api.example.com", "GET", "orgs/acme/actions/secrets"⟩] := by
  have h := c2_org_literal_request "api.example.com"
      ⟨.ok (), .ok ⟨"octo", "repo1", "ghe.corp.example"⟩, "acme", false⟩
      (fun _ => .ok ⟨[]⟩) (fun _ => .ok ()) rfl (by decide) (by decide)
  simpa using h

/-- C3: when `--org` is omitted (empty), the client was created and the
repository accessor succeeded, the single `GET` targets
`repos/{owner}/{name}/actions/secrets` at that repository's host. -/
theorem c3_repo_scope_request (defaultHost : String) (opts : ListOptions)
    (rest : RestHelper) (render : List (List String) → Except String Unit)
    (repo : Repo) (hc : opts.HttpClient = .ok ())
    (ho : opts.OrgName = "") (hb : opts.BaseRepo = .ok repo) :
    (listRun defaultHost opts rest render).requests =
      [⟨repo.RepoHost, "GET",
        "repos/" ++ repo.RepoOwner ++ "/" ++ repo.RepoName ++ "/actions/secrets"⟩] := by
  rw [listRun_repo_scope defaultHost opts rest render repo hc ho hb,
    finishRun_requests, getRepoSecrets_fst]
  simp [FullName, String.append_assoc]

/-- C3 witness: with no `--org` and ambient repository `octo/repo1` at
`example.com`, the `GET` targets `repos/octo/repo1/actions/secrets` at
`example.com`. -/
theorem c3_repo_scope_witness :
    (listRun "default.host"
        ⟨.ok (), .ok ⟨"octo", "repo1", "example.com"⟩, "", true⟩
        (fun _ => .ok ⟨[]⟩) (fun _ => .ok ())).requests =
      [⟨"example.com", "GET", "repos/octo/repo1/actions/secrets"⟩] := by
  have h := c3_repo_scope_request "default.host"
      ⟨.ok (), .ok ⟨"octo", "repo1", "example.com"⟩, "", true⟩
      (fun _ => .ok ⟨[]⟩) (fun _ => .ok ())
      ⟨"octo", "repo1", "example.com"⟩ rfl rfl rfl
  simpa using h

/-- C4: for a secret with non-empty visibility, the third rendered column
is the descriptive phrase on a TTY (`all`, `private`, `selected` map to
their phrases, anything else to the empty string) and the uppercased tag
otherwise. -/
theorem c4_visibility_column (isTTY : Bool) (s : Secret)
    (h : s.Visibility ≠ "") :
    (secretRow isTTY s)[2]? =
      some (if isTTY then
              (if s.Visibility = "all" then "Visible to all repositories"
               else if s.Visibility = "private" then "Visible to private repositories"
               else if s.Visibility = "selected" then "Visible to selected repositories"
               else "")
            else strToUpper s.Visibility) := by
  cases isTTY <;>
    simp [secretRow, h, fmtVisibility, VisAll, VisPrivate, VisSelected]

/-- C4 witness: a secret with visibility `all` renders
`Visible to all repositories` in the third column on a TTY, and `ALL`
when piped. -/
theorem c4_visibility_witness :
    (secretRow true ⟨"DEPLOY_KEY", ⟨2024, 1, 15⟩, "all"⟩)[2]? =
      some "Visible to all repositories" ∧
    (secretRow false ⟨"DEPLOY_KEY", ⟨2024, 1, 15⟩, "all"⟩)[2]? =
      some "ALL" := by
  have h1 := c4_visibility_column true ⟨"DEPLOY_KEY", ⟨2024, 1, 15⟩, "all"⟩ (by decide)
  have h2 := c4_visibility_column false ⟨"DEPLOY_KEY", ⟨2024, 1, 15⟩, "all"⟩ (by decide)
  refine ⟨by simpa using h1, ?_⟩
  rw [show ("ALL" : String) = strToUpper "all" from rfl]
  simpa using h2

/-- C5 counterexample: a client-creation failure `boom` is surfaced as
`could not create http client: boom`, which differs from the raised
error, so errors are not propagated unmodified as the claim states. -/
theorem c5_counterexample :
    (listRun "default.host"
        ⟨.error "boom", .ok ⟨"octo", "repo1", "example.com"⟩, "", false⟩
        (fun _ => .ok ⟨[]⟩) (fun _ => .ok ())).result =
      .error "could not create http client: boom" ∧
    ("could not create http client: boom" : String) ≠ "boom" :=
  ⟨rfl, by decide⟩

/-- C5 amended: the first error encountered halts execution with no
retry (the request trace never exceeds one `GET`, and is empty when the
client or repository-resolution step fails): client-creation,
repository-resolution and fetch errors are surfaced wrapped with a fixed
context prefix preserving the underlying error text, while render errors
are surfaced verbatim. -/
theorem c5_error_propagation (defaultHost : String) (opts : ListOptions)
    (rest : RestHelper) (render : List (List String) → Except String Unit) :
    (∀ e, opts.HttpClient = .error e →
        listRun defaultHost opts rest render =
          ⟨[], false, [], .error ("could not create http client: " ++ e)⟩) ∧
    (∀ e, opts.HttpClient = .ok () →
        (opts.OrgName = "" ∨ opts.OrgName = "@owner") →
        opts.BaseRepo = .error e →
        listRun defaultHost opts rest render =
          ⟨[], true, [], .error ("could not determine base repo: " ++ e)⟩) ∧
    (∀ e, opts.HttpClient = .ok () →
        ((opts.OrgName ≠ "" ∧ opts.OrgName ≠ "@owner") ∨
          ∃ r, opts.BaseRepo = .ok r) →
        (∀ q, rest q = .error e) →
        (listRun defaultHost opts rest render).result =
          .error ("failed to get secrets: " ++ e)) ∧
    (∀ e payload, opts.HttpClient = .ok () →
        ((opts.OrgName ≠ "" ∧ opts.OrgName ≠ "@owner") ∨
          ∃ r, opts.BaseRepo = .ok r) →
        (∀ q, rest q = .ok payload) →
        (∀ tableRows, render tableRows = .error e) →
        (listRun defaultHost opts rest render).result = .error e) ∧
    (listRun defaultHost opts rest render).requests.length ≤ 1 := by
  refine ⟨fun e hc => listRun_client_error defaultHost opts rest render e hc,
    fun e hc hneed hb => listRun_repo_error defaultHost opts rest render e hc hneed hb,
    ?_, ?_, ?_⟩
  · intro e hc hrep hrest
    rcases listRun_cases defaultHost opts rest render with
      ⟨e', hce, _⟩ | ⟨e', hbe, hneed, _⟩ | ⟨ho, pa, called, heq⟩
    · rw [hc] at hce; cases hce
    · rcases hrep with ⟨hn1, hn2⟩ | ⟨r, hr⟩
      · rcases hneed with hn | hn
        · exact absurd hn hn1
        · exact absurd hn hn2
      · rw [hr] at hbe; cases hbe
    · have hget : getSecrets rest ho pa = (⟨ho, "GET", pa⟩, .error e) := by
        simp [getSecrets, hrest]
      rw [heq, hget, finishRun_fetch_error]
  · intro e payload hc hrep hrest hrender
    rcases listRun_cases defaultHost opts rest render with
      ⟨e', hce, _⟩ | ⟨e', hbe, hneed, _⟩ | ⟨ho, pa, called, heq⟩
    · rw [hc] at hce; cases hce
    · rcases hrep with ⟨hn1, hn2⟩ | ⟨r, hr⟩
      · rcases hneed with hn | hn
        · exact absurd hn hn1
        · exact absurd hn hn2
      · rw [hr] at hbe; cases hbe
    · have hget : getSecrets rest ho pa = (⟨ho, "GET", pa⟩, .ok payload.Secrets) := by
        simp [getSecrets, hrest]
      rw [heq, hget,
        finishRun_render_error opts.IsStdoutTTY render called ⟨ho, "GET", pa⟩
          payload.Secrets e (hrender _)]
  · rcases listRun_cases defaultHost opts rest render with
      ⟨e', _, heq⟩ | ⟨e', _, _, heq⟩ | ⟨ho, pa, called, heq⟩
    · rw [heq]; simp
    · rw [heq]; simp
    · rw [heq, finishRun_requests]; simp

/-- C5 witness: a concrete failed client creation is surfaced with the
fixed prefix, and a concrete render failure `pipe closed` is surfaced
verbatim. -/
theorem c5_error_propagation_witness :
    listRun "default.host"
        ⟨.error "boom", .ok ⟨"octo", "repo1", "example.com"⟩, "", false⟩
        (fun _ => .ok ⟨[]⟩) (fun _ => .ok ()) =
      ⟨[], false, [], .error ("could not create http client: " ++ "boom")⟩ ∧
    (listRun "default.host"
        ⟨.ok (), .ok ⟨"octo", "repo1", "example.com"⟩, "acme", false⟩
        (fun _ => .ok ⟨[]⟩) (fun _ => .error "pipe closed")).result =
      .error "pipe closed" := by
  refine ⟨(c5_error_propagation "default.host"
      ⟨.error "boom", .ok ⟨"octo", "repo1", "example.com"⟩, "", false⟩
      (fun _ => .ok ⟨[]⟩) (fun _ => .ok ())).1 "boom" rfl, ?_⟩
  exact (c5_error_propagation "default.host"
      ⟨.ok (), .ok ⟨"octo", "repo1", "example.com"⟩, "acme", false⟩
      (fun _ => .ok ⟨[]⟩) (fun _ => .error "pipe closed")).2.2.2.1
    "pipe closed" ⟨[]⟩ rfl (.inl ⟨by decide, by decide⟩)
    (fun _ => rfl) (fun _ => rfl)

/-- C6: the table built by the render loop has exactly one row per
secret of the decoded payload, in payload order (the rows are the
per-secret rows mapped over the payload, with no sorting). -/
theorem c6_rows_match_payload (isTTY : Bool) (secrets : List Secret) :
    (buildTable isTTY secrets).rows.length = secrets.length ∧
    (buildTable isTTY secrets).rows = secrets.map (secretRow isTTY) := by
  have h := buildTable_rows isTTY secrets
  exact ⟨by rw [h]; simp, h⟩

/-- C7: the second rendered column is the update date formatted as
`YYYY-MM-DD`, prefixed with `Updated ` exactly when the output is a TTY;
in particular a secret updated on 2024-01-15 shows `Updated 2024-01-15`
interactively and `2024-01-15` otherwise. -/
theorem c7_updated_column (isTTY : Bool) (s : Secret) :
    (secretRow isTTY s)[1]? =
      some (if isTTY then "Updated " ++ formatDate s.UpdatedAt
            else formatDate s.UpdatedAt) ∧
    formatDate ⟨2024, 1, 15⟩ = "2024-01-15" ∧
    (secretRow true ⟨"S", ⟨2024, 1, 15⟩, ""⟩)[1]? = some "Updated 2024-01-15" ∧
    (secretRow false ⟨"S", ⟨2024, 1, 15⟩, ""⟩)[1]? = some "2024-01-15" := by
  refine ⟨?_, rfl, rfl, rfl⟩
  cases isTTY <;> simp [secretRow]

/-- C8: a secret whose visibility is empty (repository-scoped) renders a
row of exactly two columns. -/
theorem c8_repo_secret_two_columns (isTTY : Bool) (s : Secret)
    (h : s.Visibility = "") :
    (secretRow isTTY s).length = 2 := by
  simp [secretRow, h]

/-- C8 witness: a concrete repository-scoped secret renders two columns,
on a TTY and piped alike. -/
theorem c8_repo_secret_two_columns_witness :
    (secretRow true ⟨"DEPLOY_KEY", ⟨2024, 1, 15⟩, ""⟩).length = 2 ∧
    (secretRow false ⟨"DEPLOY_KEY", ⟨2024, 1, 15⟩, ""⟩).length = 2 :=
  ⟨c8_repo_secret_two_columns true ⟨"DEPLOY_KEY", ⟨2024, 1, 15⟩, ""⟩ rfl,
   c8_repo_secret_two_columns false ⟨"DEPLOY_KEY", ⟨2024, 1, 15⟩, ""⟩ rfl⟩

/-- C9: a successful response with zero secrets makes the fetcher return
the empty sequence (not an error), and the whole command then succeeds,
handing the renderer an empty table. -/
theorem c9_empty_payload (defaultHost : String) (opts : ListOptions)
    (rest : RestHelper) (render : List (List String) → Except String Unit)
    (host path : String) (hc : opts.HttpClient = .ok ())
    (hrep : (opts.OrgName ≠ "" ∧ opts.OrgName ≠ "@owner") ∨
      ∃ r, opts.BaseRepo = .ok r)
    (hrest : ∀ q, rest q = .ok ⟨[]⟩)
    (hrender : render [] = .ok ()) :
    (getSecrets rest host path).2 = .ok ([] : List Secret) ∧
    (listRun defaultHost opts rest render).result = .ok () ∧
    (listRun defaultHost opts rest render).rows = [] := by
  refine ⟨by simp [getSecrets, hrest], ?_⟩
  rcases listRun_cases defaultHost opts rest render with
    ⟨e', hce, _⟩ | ⟨e', hbe, hneed, _⟩ | ⟨ho, pa, called, heq⟩
  · rw [hc] at hce; cases hce
  · rcases hrep with ⟨hn1, hn2⟩ | ⟨r, hr⟩
    · rcases hneed with hn | hn
      · exact absurd hn hn1
      · exact absurd hn hn2
    · rw [hr] at hbe; cases hbe
  · have hget : getSecrets rest ho pa = (⟨ho, "GET", pa⟩, .ok ([] : List Secret)) := by
      simp [getSecrets, hrest]
    have hr : render (buildTable opts.IsStdoutTTY ([] : List Secret)).rows = .ok () :=
      hrender
    rw [heq, hget,
      finishRun_render_ok opts.IsStdoutTTY render called ⟨ho, "GET", pa⟩ [] hr]
    exact ⟨rfl, rfl⟩

/-- C9 witness: a concrete invocation whose service responds with zero
secrets completes successfully with an empty table. -/
theorem c9_empty_payload_witness :
    ((getSecrets (fun _ => .ok ⟨[]⟩) "example.com"
        "repos/octo/repo1/actions/secrets").2 = .ok ([] : List Secret)) ∧
    (listRun "default.host"
        ⟨.ok (), .ok ⟨"octo", "repo1", "example.com"⟩, "", false⟩
        (fun _ => .ok ⟨[]⟩) (fun _ => .ok ())).result = .ok () ∧
    (listRun "default.host"
        ⟨.ok (), .ok ⟨"octo", "repo1", "example.com"⟩, "", false⟩
        (fun _ => .ok ⟨[]⟩) (fun _ => .ok ())).rows = [] :=
  c9_empty_payload "default.host"
    ⟨.ok (), .ok ⟨"octo", "repo1", "example.com"⟩, "", false⟩
    (fun _ => .ok ⟨[]⟩) (fun _ => .ok ())
    "example.com" "repos/octo/repo1/actions/secrets" rfl
    (.inr ⟨⟨"octo", "repo1", "example.com"⟩, rfl⟩) (fun _ => rfl) rfl

/-- C10: with a literal organization name (non-empty, not the sentinel),
the repository-context accessor is never consulted and the whole run is
independent of whatever that accessor would have returned, so no
repository-resolution failure can occur. -/
theorem c10_no_repo_access (defaultHost : String) (opts : ListOptions)
    (rest : RestHelper) (render : List (List String) → Except String Unit)
    (h1 : opts.OrgName ≠ "") (h2 : opts.OrgName ≠ "@owner") :
    (listRun defaultHost opts rest render).baseRepoCalled = false ∧
    ∀ b, listRun defaultHost { opts with BaseRepo := b } rest render =
        listRun defaultHost opts rest render := by
  cases hc : opts.HttpClient with
  | error e =>
    refine ⟨?_, fun b => ?_⟩
    · rw [listRun_client_error defaultHost opts rest render e hc]
    · rw [listRun_client_error defaultHost opts rest render e hc]
      exact listRun_client_error defaultHost _ rest render e rfl
  | ok u =>
    cases u
    refine ⟨?_, fun b => ?_⟩
    · rw [listRun_org_literal defaultHost opts rest render hc h1 h2, finishRun_called]
    · rw [listRun_org_literal defaultHost opts rest render hc h1 h2]
      exact listRun_org_literal defaultHost _ rest render rfl h1 h2

/-- C10 witness: `--org=acme` with a failing repository accessor still
never consults it, and replacing the accessor outcome leaves the whole
run unchanged. -/
theorem c10_no_repo_access_witness :
    (listRun "default.host"
        ⟨.ok (), .error "no ambient repository", "acme", false⟩
        (fun _ => .ok ⟨[]⟩) (fun _ => .ok ())).baseRepoCalled = false ∧
    listRun "default.host"
        ⟨.ok (), .ok ⟨"octo", "repo1", "example.com"⟩, "acme", false⟩
        (fun _ => .ok ⟨[]⟩) (fun _ => .ok ()) =
      listRun "default.host"
        ⟨.ok (), .error "no ambient repository", "acme", false⟩
        (fun _ => .ok ⟨[]⟩) (fun _ => .ok ()) := by
  have h := c10_no_repo_access "default.host"
      ⟨.ok (), .error "no ambient repository", "acme", false⟩
      (fun _ => .ok ⟨[]⟩) (fun _ => .ok ()) (by decide) (by decide)
  exact ⟨h.1, h.2 (.ok ⟨"octo", "repo1", "example.com"⟩)⟩

end SecretList
